import Mathlib

/-
Verification of the snow-space Brampton traffic scorer.

The model below is a shallow embedding of
  scripts/traffic_scoring/traffic_scorer_simple.py  (SimpleBramptonTrafficScorer)
  scripts/traffic_scoring/traffic_scorer.py         (BramptonTrafficScorer)

Conventions of the embedding:
- Python floats are modelled as exact numbers: coordinates, volumes and scores
  are rationals; distances are reals (Euclidean distance needs a square root).
- scipy.spatial.cKDTree.query(point, k) is modelled by sorting the point
  indices by distance to the query (ties broken by index, which fixes one of
  the orders scipy may return) and taking the first k; when k exceeds the
  number n of indexed points, scipy pads the result with missing neighbors
  carrying infinite distance and index n, which the model reproduces by
  appending the out-of-range index n (a missing neighbor's inverse-distance
  weight 1/(inf + eps) is exactly 0, see neighborDistWeight).
- A Python method that can raise returns Except; the error constructors name
  the exception the source raises at that point.
-/

namespace SnowSpace

/-- A (longitude, latitude) pair, as stored in the traffic_points array. -/
abbrev Coord : Type := ℚ × ℚ

/-- Squared Euclidean distance between two coordinate pairs. -/
def sqDist (p q : Coord) : ℚ :=
  (p.1 - q.1) ^ 2 + (p.2 - q.2) ^ 2

/-- Euclidean distance, as computed by cKDTree.query (default p = 2). -/
noncomputable def eDist (p q : Coord) : ℝ :=
  Real.sqrt ((sqDist p q : ℚ) : ℝ)

/-- The epsilon 1e-6 added to distances before inversion (source line
`weights = 1.0 / (distances + 1e-6)`). -/
def eps : ℚ := 1 / 1000000

/-- np.clip(x, lo, hi): clamp below at lo, then above at hi. -/
def clip {A : Type} [LinearOrder A] (x lo hi : A) : A :=
  min (max x lo) hi

/-- Insert an element into a list so that a sorted input stays sorted for the
boolean comparison le (used to model the sorting the k-d tree performs). -/
def insertLe {A : Type} (le : A → A → Bool) (x : A) : List A → List A
  | [] => [x]
  | y :: ys => if le x y then x :: y :: ys else y :: insertLe le x ys

/-- Insertion sort by the boolean comparison le. -/
def sortLe {A : Type} (le : A → A → Bool) : List A → List A
  | [] => []
  | x :: xs => insertLe le x (sortLe le xs)

/-- The comparison cKDTree.query orders neighbor indices by: strictly smaller
squared distance to the query first, ties broken by smaller index. -/
def distLeIdx (pts : List Coord) (q : Coord) (i j : ℕ) : Bool :=
  decide (sqDist (pts.getD i (0, 0)) q < sqDist (pts.getD j (0, 0)) q ∨
    (sqDist (pts.getD i (0, 0)) q = sqDist (pts.getD j (0, 0)) q ∧ i ≤ j))

/-- All indices of the indexed points, ordered by distance to the query:
the full neighbor ordering underlying cKDTree.query. -/
def sortedIndices (pts : List Coord) (q : Coord) : List ℕ :=
  sortLe (distLeIdx pts q) (List.range pts.length)

/-- The index list returned by cKDTree.query(q, k): the k nearest indices in
ascending distance order; when k > n the result is padded with the
out-of-range index n (scipy's marker for a missing neighbor). -/
def queryIndices (pts : List Coord) (q : Coord) (k : ℕ) : List ℕ :=
  (sortedIndices pts q).take k ++ List.replicate (k - pts.length) pts.length

/-- The un-normalized inverse-distance weight 1/(d_i + 1e-6) of neighbor
index i. A missing neighbor (index ≥ n) has infinite distance in scipy, and
1/(inf + 1e-6) is exactly 0.0 in IEEE arithmetic, so it weighs 0. -/
noncomputable def neighborDistWeight (pts : List Coord) (q : Coord) (i : ℕ) : ℝ :=
  if i < pts.length then 1 / (eDist (pts.getD i (0, 0)) q + (eps : ℝ)) else 0

/-- Distance from the query to the nearest indexed point (minimum of the
Euclidean distances to all points of the index; 0 for an empty index). -/
noncomputable def nearestDist (pts : List Coord) (q : Coord) : ℝ :=
  match pts with
  | [] => 0
  | p :: ps => (ps.map (fun r => eDist r q)).foldr min (eDist p q)

/-- The value `np.sum(self.traffic_scores[indices] * weights)` with
`weights = (1/(d+1e-6)) / np.sum(1/(d+1e-6))`, written with the
normalizing sum pulled out of the linear sum:
(sum_i u_i * s_i) / (sum_i u_i). -/
noncomputable def idwScore (pts : List Coord) (scores : List ℚ) (q : Coord) (k : ℕ) : ℝ :=
  (((queryIndices pts q k).map
      (fun i => neighborDistWeight pts q i * ((scores.getD i 0 : ℚ) : ℝ))).sum) /
    (((queryIndices pts q k).map (neighborDistWeight pts q)).sum)

/-- The first entry of the distance array cKDTree.query returns: the distance
from the query to the point whose index heads queryIndices. -/
noncomputable def queryHeadDist (pts : List Coord) (q : Coord) (k : ℕ) : ℝ :=
  eDist (pts.getD ((queryIndices pts q k).headD 0) (0, 0)) q

/-- numpy fancy indexing `traffic_scores[indices]`: succeeds with the list of
selected entries iff every index is in bounds, otherwise raises IndexError
(modelled as none). -/
def fancyIndex (scores : List ℚ) : List ℕ → Option (List ℚ)
  | [] => some []
  | i :: is =>
    match scores[i]?, fancyIndex scores is with
    | some v, some vs => some (v :: vs)
    | _, _ => none

/-- The exceptions a query can raise.
- notPrepared: RuntimeError raised when self.kdtree is None;
- scalarSubscript: with k = 1 cKDTree.query returns scalars, so the
  subsequent `distances[0]` subscript raises (TypeError);
- emptyQuery: k = 0 yields no distance at subscript 0 either (the model never
  relies on this case);
- indexError: IndexError from `traffic_scores[indices]` when an index
  (scipy's missing-neighbor marker n) is out of bounds. -/
inductive QueryError : Type
  | notPrepared
  | scalarSubscript
  | emptyQuery
  | indexError
deriving DecidableEq, Repr

/-- The state of a SimpleBramptonTrafficScorer. The kdtree field holds the
point list the tree was built over (none models self.kdtree is None); the
file-system fields (data_dir, cache path) are not part of the model. -/
structure SimpleBramptonTrafficScorer : Type where
  kdtree : Option (List Coord)
  traffic_points : List Coord
  traffic_scores : List ℚ

/-- Default k of both scorers' get_traffic_score. -/
def default_k : ℕ := 5

/-- Default max_distance of SimpleBramptonTrafficScorer.get_traffic_score
(0.02 degrees). -/
def simple_default_max_distance : ℚ := 2 / 100

/-- Default max_distance of BramptonTrafficScorer.get_traffic_score
(0.01 degrees). -/
def brampton_default_max_distance : ℚ := 1 / 100

/-- SimpleBramptonTrafficScorer.get_traffic_score, lines 140-172 of
traffic_scorer_simple.py. Steps, in source order: raise if not prepared;
query the tree for the k nearest neighbors (k = 1 makes the later
`distances[0]` subscript fail, since the query returns scalars; an empty
index makes every distance infinite, so the cutoff below always fires);
return 0.0 if the nearest distance exceeds max_distance; otherwise take the
inverse-distance-weighted average of the selected scores
(`traffic_scores[indices]` raises IndexError if an index is out of bounds)
and clip it into [0, 1]. -/
noncomputable def SimpleBramptonTrafficScorer.get_traffic_score
    (s : SimpleBramptonTrafficScorer) (lon lat : ℚ) (k : ℕ) (max_distance : ℚ) :
    Except QueryError ℝ :=
  match s.kdtree with
  | none => Except.error QueryError.notPrepared
  | some pts =>
    if k = 0 then Except.error QueryError.emptyQuery
    else if k = 1 then Except.error QueryError.scalarSubscript
    else if pts.isEmpty then Except.ok 0
    else if (max_distance : ℝ) < queryHeadDist pts (lon, lat) k then Except.ok 0
    else
      match fancyIndex s.traffic_scores (queryIndices pts (lon, lat) k) with
      | none => Except.error QueryError.indexError
      | some _ => Except.ok (clip (idwScore pts s.traffic_scores (lon, lat) k) 0 1)

/-- SimpleBramptonTrafficScorer.batch_score, lines 174-181: a sequential list
comprehension of single-point calls with the default k and max_distance; the
first exception aborts the whole call. -/
noncomputable def SimpleBramptonTrafficScorer.batch_score
    (s : SimpleBramptonTrafficScorer) (coordinates : List Coord) :
    Except QueryError (List ℝ) :=
  match coordinates with
  | [] => Except.ok []
  | c :: cs =>
    match s.get_traffic_score c.1 c.2 default_k simple_default_max_distance,
        s.batch_score cs with
    | Except.error e, _ => Except.error e
    | Except.ok _, Except.error e => Except.error e
    | Except.ok v, Except.ok vs => Except.ok (v :: vs)

/-- The state of a BramptonTrafficScorer (traffic_scorer.py). The fields the
query path reads are the same three as in the simple variant; the class's
further fields (traffic_data, road_network, interpolator, brampton_bounds)
are never read by get_traffic_score or batch_score and are not modelled. -/
structure BramptonTrafficScorer : Type where
  kdtree : Option (List Coord)
  traffic_points : List Coord
  traffic_scores : List ℚ

/-- BramptonTrafficScorer.get_traffic_score, lines 327-360 of
traffic_scorer.py: the same algorithm as the simple variant line for line;
only the default max_distance at the interface differs (0.01 vs 0.02). -/
noncomputable def BramptonTrafficScorer.get_traffic_score
    (s : BramptonTrafficScorer) (lon lat : ℚ) (k : ℕ) (max_distance : ℚ) :
    Except QueryError ℝ :=
  match s.kdtree with
  | none => Except.error QueryError.notPrepared
  | some pts =>
    if k = 0 then Except.error QueryError.emptyQuery
    else if k = 1 then Except.error QueryError.scalarSubscript
    else if pts.isEmpty then Except.ok 0
    else if (max_distance : ℝ) < queryHeadDist pts (lon, lat) k then Except.ok 0
    else
      match fancyIndex s.traffic_scores (queryIndices pts (lon, lat) k) with
      | none => Except.error QueryError.indexError
      | some _ => Except.ok (clip (idwScore pts s.traffic_scores (lon, lat) k) 0 1)

/-- BramptonTrafficScorer.batch_score, lines 362-377: identical to the simple
variant's batch loop, with this class's default max_distance. -/
noncomputable def BramptonTrafficScorer.batch_score
    (s : BramptonTrafficScorer) (coordinates : List Coord) :
    Except QueryError (List ℝ) :=
  match coordinates with
  | [] => Except.ok []
  | c :: cs =>
    match s.get_traffic_score c.1 c.2 default_k brampton_default_max_distance,
        s.batch_score cs with
    | Except.error e, _ => Except.error e
    | Except.ok _, Except.error e => Except.error e
    | Except.ok v, Except.ok vs => Except.ok (v :: vs)

/-- The one failure prepare_data can report in the model. -/
inductive PrepareError : Type
  | noData
deriving DecidableEq, Repr

/-- The extraction loop of prepare_data (traffic_scorer_simple.py lines
67-112): each raw record resolves (outside the model) to the coordinate list
its geometry yields (empty when the geometry is missing or of an unhandled
kind) and to the first positive volume its fields yield (none when no field
parses); a record contributes one (coordinate, volume) observation per
resolved coordinate iff its volume is present and strictly positive. -/
def extractObservations (records : List (List Coord × Option ℚ)) : List (Coord × ℚ) :=
  records.foldr
    (fun r acc =>
      match r.2 with
      | some v => if 0 < v then r.1.map (fun c => (c, v)) ++ acc else acc
      | none => acc)
    []

/-- np.percentile(vols, 95) with the default linear interpolation: sort
ascending, take position h = 0.95*(n-1), interpolate linearly between the
neighboring order statistics. On an empty array numpy raises (IndexError /
ValueError), modelled as none. -/
def percentile95 (vols : List ℚ) : Option ℚ :=
  if vols.isEmpty then none
  else
    let sorted := sortLe (fun a b => decide (a ≤ b)) vols
    let n := vols.length
    let h : ℚ := (95 / 100 : ℚ) * ((n : ℚ) - 1)
    let i : ℕ := h.floor.toNat
    let g : ℚ := h - (i : ℚ)
    some (sorted.getD i 0 + g * (sorted.getD (i + 1) 0 - sorted.getD i 0))

/-- SimpleBramptonTrafficScorer.prepare_data, lines 114-138 (its fresh-build
path; the cache branch at lines 39-47 reads the file system and is not
modelled): collect the usable observations, fail when there are none (with
zero observations numpy's empty-array reduction min / percentile raises, so
preparation aborts: the NoData error), otherwise normalize the volumes by
their 95th percentile clipped into [0, 1] and build the k-d tree over the
points. -/
def prepare_data (records : List (List Coord × Option ℚ)) :
    Except PrepareError SimpleBramptonTrafficScorer :=
  match percentile95 ((extractObservations records).map Prod.snd) with
  | none => Except.error PrepareError.noData
  | some ceiling =>
    Except.ok
      { kdtree := some ((extractObservations records).map Prod.fst)
        traffic_points := (extractObservations records).map Prod.fst
        traffic_scores := ((extractObservations records).map Prod.snd).map
          (fun v => clip (v / ceiling) 0 1) }

/-- The spec's description of the normalized weights: weight_i = 1/(d_i + eps),
then each weight divided by the sum of all of them. -/
noncomputable def specWeights (ds : List ℝ) : List ℝ :=
  let raw := ds.map (fun d => 1 / (d + (eps : ℝ)))
  raw.map (fun u => u / raw.sum)

/-- The spec's interpolation formula: sum of weight_i * score_i over the k
neighbors, with the weights of specWeights. -/
noncomputable def specInterpolation (ds ss : List ℝ) : ℝ :=
  (((specWeights ds).zip ss).map (fun p => p.1 * p.2)).sum

/-- A concrete prepared scorer over two points on the x-axis, 7 and 10
degrees from the query point (10, 0) used below. -/
def twoPointScorer : SimpleBramptonTrafficScorer :=
  { kdtree := some [(0, 0), (3, 0)]
    traffic_points := [(0, 0), (3, 0)]
    traffic_scores := [1, 1 / 2] }

/-- A concrete prepared scorer over a point at the origin with score 1 and a
point one degree above it with score 0. -/
def unitScorer : SimpleBramptonTrafficScorer :=
  { kdtree := some [(0, 0), (0, 1)]
    traffic_points := [(0, 0), (0, 1)]
    traffic_scores := [1, 0] }

/-- A scorer on which prepare_data has not run: kdtree is None. -/
def unpreparedScorer : SimpleBramptonTrafficScorer :=
  { kdtree := none
    traffic_points := []
    traffic_scores := [] }

/-- Inserting with insertLe permutes the element onto the list. -/
theorem insertLe_perm {A : Type} (le : A → A → Bool) (x : A) (l : List A) :
    List.Perm (insertLe le x l) (x :: l) := by
  induction l with
  | nil => simp [insertLe]
  | cons y ys ih =>
    simp only [insertLe]
    by_cases h : le x y
    · simp [h]
    · simp only [h, if_false, Bool.false_eq_true]
      exact List.Perm.trans (List.Perm.cons y ih) (List.Perm.swap x y ys)

/-- sortLe permutes its input. -/
theorem sortLe_perm {A : Type} (le : A → A → Bool) (l : List A) :
    List.Perm (sortLe le l) l := by
  induction l with
  | nil => simp [sortLe]
  | cons x xs ih =>
    exact List.Perm.trans (insertLe_perm le x (sortLe le xs)) (List.Perm.cons x ih)

/-- insertLe keeps a list pairwise-ordered for a total transitive comparison. -/
theorem insertLe_pairwise {A : Type} (le : A → A → Bool)
    (htot : ∀ a b, le a b = true ∨ le b a = true)
    (htrans : ∀ a b c, le a b = true → le b c = true → le a c = true)
    (x : A) (l : List A) (h : l.Pairwise (fun a b => le a b = true)) :
    (insertLe le x l).Pairwise (fun a b => le a b = true) := by
  induction l with
  | nil => simp [insertLe]
  | cons y ys ih =>
    rw [List.pairwise_cons] at h
    obtain ⟨hy, hys⟩ := h
    simp only [insertLe]
    by_cases hxy : le x y
    · simp only [hxy, if_true]
      refine List.Pairwise.cons ?_ (List.Pairwise.cons hy hys)
      intro z hz
      rcases List.mem_cons.mp hz with hz | hz
      · exact hz ▸ hxy
      · exact htrans x y z hxy (hy z hz)
    · simp only [hxy, if_false, Bool.false_eq_true]
      have hyx : le y x = true := by
        rcases htot x y with hh | hh
        · exact absurd hh hxy
        · exact hh
      refine List.Pairwise.cons ?_ (ih hys)
      intro z hz
      have hz2 := (insertLe_perm le x ys).mem_iff.mp hz
      rcases List.mem_cons.mp hz2 with hz3 | hz3
      · exact hz3 ▸ hyx
      · exact hy z hz3

/-- sortLe sorts for a total transitive comparison. -/
theorem sortLe_pairwise {A : Type} (le : A → A → Bool)
    (htot : ∀ a b, le a b = true ∨ le b a = true)
    (htrans : ∀ a b c, le a b = true → le b c = true → le a c = true)
    (l : List A) : (sortLe le l).Pairwise (fun a b => le a b = true) := by
  induction l with
  | nil => simp [sortLe]
  | cons x xs ih => exact insertLe_pairwise le htot htrans x (sortLe le xs) ih

/-- The neighbor comparison is total. -/
theorem distLeIdx_total (pts : List Coord) (q : Coord) :
    ∀ a b, distLeIdx pts q a b = true ∨ distLeIdx pts q b a = true := by
  intro a b
  simp only [distLeIdx, decide_eq_true_eq]
  rcases lt_trichotomy (sqDist (pts.getD a (0, 0)) q) (sqDist (pts.getD b (0, 0)) q) with h | h | h
  · exact Or.inl (Or.inl h)
  · rcases le_total a b with hab | hba
    · exact Or.inl (Or.inr ⟨h, hab⟩)
    · exact Or.inr (Or.inr ⟨h.symm, hba⟩)
  · exact Or.inr (Or.inl h)

/-- The neighbor comparison is transitive. -/
theorem distLeIdx_trans (pts : List Coord) (q : Coord) :
    ∀ a b c, distLeIdx pts q a b = true → distLeIdx pts q b c = true →
      distLeIdx pts q a c = true := by
  intro a b c hab hbc
  simp only [distLeIdx, decide_eq_true_eq] at hab hbc ⊢
  rcases hab with hab | ⟨hab, hab2⟩ <;> rcases hbc with hbc | ⟨hbc, hbc2⟩
  · exact Or.inl (lt_trans hab hbc)
  · exact Or.inl (hbc ▸ hab)
  · exact Or.inl (hab ▸ hbc)
  · exact Or.inr ⟨hab.trans hbc, le_trans hab2 hbc2⟩

/-- The neighbor comparison implies the squared-distance comparison. -/
theorem distLeIdx_sqDist_le (pts : List Coord) (q : Coord) (a b : ℕ)
    (h : distLeIdx pts q a b = true) :
    sqDist (pts.getD a (0, 0)) q ≤ sqDist (pts.getD b (0, 0)) q := by
  simp only [distLeIdx, decide_eq_true_eq] at h
  rcases h with h | ⟨h, _⟩
  · exact le_of_lt h
  · exact le_of_eq h

/-- sortedIndices is a permutation of range n. -/
theorem sortedIndices_perm (pts : List Coord) (q : Coord) :
    List.Perm (sortedIndices pts q) (List.range pts.length) :=
  sortLe_perm (distLeIdx pts q) (List.range pts.length)

/-- sortedIndices is pairwise ordered by the neighbor comparison. -/
theorem sortedIndices_pairwise (pts : List Coord) (q : Coord) :
    (sortedIndices pts q).Pairwise (fun a b => distLeIdx pts q a b = true) :=
  sortLe_pairwise (distLeIdx pts q) (distLeIdx_total pts q) (distLeIdx_trans pts q)
    (List.range pts.length)

/-- A nonempty index list starts with an index of globally minimal squared
distance to the query. -/
theorem sortedIndices_head_min (pts : List Coord) (q : Coord) (hne : pts ≠ []) :
    ∃ i0 rest, sortedIndices pts q = i0 :: rest ∧ i0 < pts.length ∧
      ∀ j, j < pts.length →
        sqDist (pts.getD i0 (0, 0)) q ≤ sqDist (pts.getD j (0, 0)) q := by
  have hlen : (sortedIndices pts q).length = pts.length := by
    rw [(sortedIndices_perm pts q).length_eq, List.length_range]
  have hpos : 0 < pts.length := List.length_pos.mpr hne
  match hs : sortedIndices pts q with
  | [] => rw [hs] at hlen; simp only [List.length_nil] at hlen; omega
  | i0 :: rest =>
    have hmem : ∀ j, j < pts.length → j ∈ i0 :: rest := by
      intro j hj
      rw [← hs]
      exact (sortedIndices_perm pts q).mem_iff.mpr (List.mem_range.mpr hj)
    have hi0 : i0 < pts.length := by
      have : i0 ∈ List.range pts.length :=
        (sortedIndices_perm pts q).mem_iff.mp (hs ▸ List.mem_cons_self i0 rest)
      exact List.mem_range.mp this
    refine ⟨i0, rest, rfl, hi0, ?_⟩
    intro j hj
    rcases List.mem_cons.mp (hmem j hj) with hj2 | hj2
    · exact le_of_eq (by rw [hj2])
    · have hp := sortedIndices_pairwise pts q
      rw [hs, List.pairwise_cons] at hp
      exact distLeIdx_sqDist_le pts q i0 j (hp.1 j hj2)

/-- Folding min never exceeds the initial value. -/
theorem foldr_min_le_init {A : Type} [LinearOrder A] (l : List A) (init : A) :
    l.foldr min init ≤ init := by
  induction l with
  | nil => exact le_refl init
  | cons x xs ih => exact le_trans (min_le_right x (xs.foldr min init)) ih

/-- Folding min never exceeds a member of the list. -/
theorem foldr_min_le_mem {A : Type} [LinearOrder A] (l : List A) (init x : A)
    (hx : x ∈ l) : l.foldr min init ≤ x := by
  induction l with
  | nil => exact absurd hx (List.not_mem_nil x)
  | cons y ys ih =>
    rcases List.mem_cons.mp hx with h | h
    · exact h ▸ min_le_left y (ys.foldr min init)
    · exact le_trans (min_le_right y (ys.foldr min init)) (ih h)

/-- A min-fold equals the initial value or some member. -/
theorem foldr_min_eq_init_or_mem {A : Type} [LinearOrder A] (l : List A) (init : A) :
    l.foldr min init = init ∨ l.foldr min init ∈ l := by
  induction l with
  | nil => exact Or.inl rfl
  | cons x xs ih =>
    rcases le_total x (xs.foldr min init) with h | h
    · right
      rw [List.foldr_cons, min_eq_left h]
      exact List.mem_cons_self x xs
    · rw [List.foldr_cons, min_eq_right h]
      rcases ih with h2 | h2
      · exact Or.inl h2
      · exact Or.inr (List.mem_cons_of_mem x h2)

/-- nearestDist is a lower bound on the distance to every indexed point. -/
theorem nearestDist_le (pts : List Coord) (q : Coord) (r : Coord) (hr : r ∈ pts) :
    nearestDist pts q ≤ eDist r q := by
  match pts with
  | [] => exact absurd hr (List.not_mem_nil r)
  | p :: ps =>
    rcases List.mem_cons.mp hr with h | h
    · exact h ▸ (foldr_min_le_init (ps.map (fun r2 => eDist r2 q)) (eDist p q))
    · exact foldr_min_le_mem (ps.map (fun r2 => eDist r2 q)) (eDist p q) (eDist r q)
        (List.mem_map_of_mem (fun r2 => eDist r2 q) h)

/-- nearestDist is attained at some indexed point. -/
theorem nearestDist_mem (pts : List Coord) (q : Coord) (hne : pts ≠ []) :
    ∃ r ∈ pts, nearestDist pts q = eDist r q := by
  match pts with
  | p :: ps =>
    rcases foldr_min_eq_init_or_mem (ps.map (fun r2 => eDist r2 q)) (eDist p q) with h | h
    · exact ⟨p, List.mem_cons_self p ps, h⟩
    · obtain ⟨r, hr, hr2⟩ := List.mem_map.mp h
      exact ⟨r, List.mem_cons_of_mem p hr, hr2.symm⟩

/-- Membership in a coordinate list, through positional getD access. -/
theorem mem_iff_getD (pts : List Coord) (r : Coord) :
    r ∈ pts ↔ ∃ j, j < pts.length ∧ pts.getD j (0, 0) = r := by
  constructor
  · intro h
    obtain ⟨j, hj, hj2⟩ := List.mem_iff_getElem.mp h
    exact ⟨j, hj, by rw [List.getD_eq_getElem pts (0, 0) hj]; exact hj2⟩
  · rintro ⟨j, hj, hj2⟩
    rw [← hj2, List.getD_eq_getElem pts (0, 0) hj]
    exact List.getElem_mem hj

/-- Monotonicity transport from squared distances to real distances. -/
theorem eDist_le_eDist (p1 p2 q : Coord) (h : sqDist p1 q ≤ sqDist p2 q) :
    eDist p1 q ≤ eDist p2 q :=
  Real.sqrt_le_sqrt (by exact_mod_cast h)

/-- With k at most n there is no padding: the query is a prefix of the full
neighbor ordering. -/
theorem queryIndices_eq_take (pts : List Coord) (q : Coord) (k : ℕ)
    (hk : k ≤ pts.length) :
    queryIndices pts q k = (sortedIndices pts q).take k := by
  simp [queryIndices, Nat.sub_eq_zero_of_le hk]

/-- The first queried index is the head of the full neighbor ordering. -/
theorem queryIndices_headD (pts : List Coord) (q : Coord) (k : ℕ) (hk : 1 ≤ k)
    (i0 : ℕ) (rest : List ℕ) (hs : sortedIndices pts q = i0 :: rest) :
    (queryIndices pts q k).headD 0 = i0 := by
  unfold queryIndices
  rw [hs]
  match k, hk with
  | k2 + 1, _ =>
    rw [List.take_succ_cons, List.cons_append, List.headD_cons]

/-- The first distance the query returns is the distance to the nearest
indexed point. -/
theorem queryHeadDist_eq_nearestDist (pts : List Coord) (q : Coord) (k : ℕ)
    (hne : pts ≠ []) (hk : 1 ≤ k) :
    queryHeadDist pts q k = nearestDist pts q := by
  obtain ⟨i0, rest, hs, hi0, hmin⟩ := sortedIndices_head_min pts q hne
  unfold queryHeadDist
  rw [queryIndices_headD pts q k hk i0 rest hs]
  apply le_antisymm
  · obtain ⟨r, hr, hr2⟩ := nearestDist_mem pts q hne
    obtain ⟨j, hj, hj2⟩ := (mem_iff_getD pts r).mp hr
    rw [hr2, ← hj2]
    exact eDist_le_eDist _ _ q (hmin j hj)
  · exact nearestDist_le pts q _ ((mem_iff_getD pts _).mpr ⟨i0, hi0, rfl⟩)

/-- Fancy indexing succeeds exactly with the positional selections when every
index is in bounds. -/
theorem fancyIndex_eq_some (scores : List ℚ) (l : List ℕ)
    (h : ∀ i ∈ l, i < scores.length) :
    fancyIndex scores l = some (l.map (fun i => scores.getD i 0)) := by
  induction l with
  | nil => rfl
  | cons i is ih =>
    have hi : i < scores.length := h i (List.mem_cons_self i is)
    have his : ∀ j ∈ is, j < scores.length := fun j hj => h j (List.mem_cons_of_mem i hj)
    simp only [fancyIndex, List.getElem?_eq_getElem hi, ih his, List.map_cons]
    rw [List.getD_eq_getElem scores 0 hi]

/-- With k at most n every queried index addresses a real point. -/
theorem queryIndices_mem_lt (pts : List Coord) (q : Coord) (k : ℕ)
    (hk : k ≤ pts.length) :
    ∀ i ∈ queryIndices pts q k, i < pts.length := by
  intro i hi
  rw [queryIndices_eq_take pts q k hk] at hi
  have h2 : i ∈ sortedIndices pts q := List.take_subset k (sortedIndices pts q) hi
  exact List.mem_range.mp ((sortedIndices_perm pts q).mem_iff.mp h2)

/-- With k at most n the query returns exactly k indices. -/
theorem queryIndices_length (pts : List Coord) (q : Coord) (k : ℕ)
    (hk : k ≤ pts.length) :
    (queryIndices pts q k).length = k := by
  rw [queryIndices_eq_take pts q k hk, List.length_take,
    (sortedIndices_perm pts q).length_eq, List.length_range]
  omega

/-- The queried indices are ordered by the neighbor comparison. -/
theorem queryIndices_pairwise (pts : List Coord) (q : Coord) (k : ℕ)
    (hk : k ≤ pts.length) :
    (queryIndices pts q k).Pairwise (fun a b => distLeIdx pts q a b = true) := by
  rw [queryIndices_eq_take pts q k hk]
  exact (sortedIndices_pairwise pts q).sublist (List.take_sublist k (sortedIndices pts q))

/-- The queried indices are the k nearest: any unqueried point is at least as
far from the query as every queried one. -/
theorem queryIndices_nearest (pts : List Coord) (q : Coord) (k : ℕ)
    (hk : k ≤ pts.length) :
    ∀ i ∈ queryIndices pts q k, ∀ j, j < pts.length → j ∉ queryIndices pts q k →
      sqDist (pts.getD i (0, 0)) q ≤ sqDist (pts.getD j (0, 0)) q := by
  intro i hi j hj hj2
  rw [queryIndices_eq_take pts q k hk] at hi hj2
  have hjs : j ∈ sortedIndices pts q :=
    (sortedIndices_perm pts q).mem_iff.mpr (List.mem_range.mpr hj)
  have hp := sortedIndices_pairwise pts q
  rw [← List.take_append_drop k (sortedIndices pts q)] at hp hjs
  rcases List.mem_append.mp hjs with h | h
  · exact absurd h hj2
  · exact distLeIdx_sqDist_le pts q i j ((List.pairwise_append.mp hp).2.2 i hi j h)

/-- Branch of get_traffic_score taken when the nearest indexed point is
beyond max_distance: the hard 0.0 cutoff, for any k at least 2. -/
theorem get_traffic_score_cutoff (s : SimpleBramptonTrafficScorer) (pts : List Coord)
    (hkd : s.kdtree = some pts) (hne : pts ≠ []) (lon lat : ℚ) (k : ℕ) (hk : 2 ≤ k)
    (max_distance : ℚ) (hfar : (max_distance : ℝ) < nearestDist pts (lon, lat)) :
    s.get_traffic_score lon lat k max_distance = Except.ok 0 := by
  have hk0 : ¬(k = 0) := by omega
  have hk1 : ¬(k = 1) := by omega
  have hem : ¬(pts.isEmpty = true) := by simpa [List.isEmpty_iff] using hne
  simp only [SimpleBramptonTrafficScorer.get_traffic_score, hkd]
  rw [if_neg hk0, if_neg hk1, if_neg hem, if_pos]
  rw [queryHeadDist_eq_nearestDist pts (lon, lat) k hne (by omega)]
  exact hfar

/-- Branch of get_traffic_score taken when the nearest indexed point is within
max_distance and 2 ≤ k ≤ n: the clipped inverse-distance-weighted average. -/
theorem get_traffic_score_interp (s : SimpleBramptonTrafficScorer) (pts : List Coord)
    (hkd : s.kdtree = some pts) (hne : pts ≠ []) (lon lat : ℚ) (k : ℕ)
    (hk : 2 ≤ k) (hkn : k ≤ pts.length) (hlen : pts.length ≤ s.traffic_scores.length)
    (max_distance : ℚ) (hnear : nearestDist pts (lon, lat) ≤ (max_distance : ℝ)) :
    s.get_traffic_score lon lat k max_distance =
      Except.ok (clip (idwScore pts s.traffic_scores (lon, lat) k) 0 1) := by
  have hk0 : ¬(k = 0) := by omega
  have hk1 : ¬(k = 1) := by omega
  have hem : ¬(pts.isEmpty = true) := by simpa [List.isEmpty_iff] using hne
  have hcut : ¬((max_distance : ℝ) < queryHeadDist pts (lon, lat) k) := by
    rw [queryHeadDist_eq_nearestDist pts (lon, lat) k hne (by omega)]
    exact not_lt.mpr hnear
  have hbound : ∀ i ∈ queryIndices pts (lon, lat) k, i < s.traffic_scores.length :=
    fun i hi => lt_of_lt_of_le (queryIndices_mem_lt pts (lon, lat) k hkn i hi) hlen
  simp only [SimpleBramptonTrafficScorer.get_traffic_score, hkd]
  rw [if_neg hk0, if_neg hk1, if_neg hem, if_neg hcut,
    fancyIndex_eq_some s.traffic_scores (queryIndices pts (lon, lat) k) hbound]

/-- Squared distances are nonnegative. -/
theorem sqDist_nonneg (p q : Coord) : 0 ≤ sqDist p q :=
  add_nonneg (sq_nonneg (p.1 - q.1)) (sq_nonneg (p.2 - q.2))

/-- The squared distance of a point to itself is zero. -/
theorem sqDist_self (q : Coord) : sqDist q q = 0 := by
  simp [sqDist]

/-- A zero squared distance forces the two coordinate pairs to coincide. -/
theorem sqDist_eq_zero (p q : Coord) (h : sqDist p q = 0) : p = q := by
  unfold sqDist at h
  have h1 : (p.1 - q.1) ^ 2 = 0 := by nlinarith [sq_nonneg (p.1 - q.1), sq_nonneg (p.2 - q.2)]
  have h2 : (p.2 - q.2) ^ 2 = 0 := by nlinarith [sq_nonneg (p.1 - q.1), sq_nonneg (p.2 - q.2)]
  have h3 : p.1 = q.1 := by nlinarith [h1]
  have h4 : p.2 = q.2 := by nlinarith [h2]
  exact Prod.ext h3 h4

/-- Euclidean distances are nonnegative. -/
theorem eDist_nonneg (p q : Coord) : 0 ≤ eDist p q :=
  Real.sqrt_nonneg _

/-- Distance zero at coinciding coordinates. -/
theorem eDist_self_zero (p q : Coord) (h : p = q) : eDist p q = 0 := by
  rw [h]
  unfold eDist
  rw [sqDist_self]
  simp

/-- The epsilon constant is a positive real. -/
theorem eps_real_pos : 0 < ((eps : ℚ) : ℝ) := by
  norm_num [eps]

/-- Inverse-distance weights are nonnegative. -/
theorem neighborDistWeight_nonneg (pts : List Coord) (q : Coord) (i : ℕ) :
    0 ≤ neighborDistWeight pts q i := by
  unfold neighborDistWeight
  by_cases hi : i < pts.length
  · rw [if_pos hi]
    exact le_of_lt (div_pos one_pos
      (add_pos_of_nonneg_of_pos (eDist_nonneg (pts.getD i (0, 0)) q) eps_real_pos))
  · rw [if_neg hi]

/-- Inverse-distance weights of real (in-bounds) neighbors are positive. -/
theorem neighborDistWeight_pos (pts : List Coord) (q : Coord) (i : ℕ)
    (hi : i < pts.length) : 0 < neighborDistWeight pts q i := by
  unfold neighborDistWeight
  rw [if_pos hi]
  exact div_pos one_pos
    (add_pos_of_nonneg_of_pos (eDist_nonneg (pts.getD i (0, 0)) q) eps_real_pos)

/-- The clipped value always lands in the [0, 1] band. -/
theorem clip_zero_one_bounds (x : ℝ) : 0 ≤ clip x 0 1 ∧ clip x 0 1 ≤ 1 := by
  unfold clip
  exact ⟨le_min (le_max_right x 0) zero_le_one, min_le_right (max x 0) 1⟩

/-- Clipping into [0, 1] moves a value no further from any target already in
[0, 1] (the clamp is 1-Lipschitz onto the band). -/
theorem clip_zero_one_dist_le (x y : ℝ) (h0 : 0 ≤ y) (h1 : y ≤ 1) :
    |clip x 0 1 - y| ≤ |x - y| := by
  have hxy1 : x - y ≤ |x - y| := le_abs_self (x - y)
  have hxy2 : -(|x - y|) ≤ x - y := neg_abs_le (x - y)
  unfold clip
  rcases le_total x 0 with hx | hx
  · rw [max_eq_right hx, min_eq_left (zero_le_one)]
    rw [abs_of_nonpos (by linarith)]
    linarith
  · rw [max_eq_left hx]
    rcases le_total x 1 with hx1 | hx1
    · rw [min_eq_left hx1]
    · rw [min_eq_right hx1]
      rw [abs_of_nonneg (by linarith)]
      linarith

/-- Pulling a common divisor out of a mapped sum. -/
theorem sum_map_div {A : Type} (l : List A) (h : A → ℝ) (c : ℝ) :
    (l.map (fun i => h i / c)).sum = (l.map h).sum / c := by
  induction l with
  | nil => simp
  | cons x xs ih => simp [ih, add_div]

/-- The distances of the queried neighbors come back sorted ascending. -/
theorem queryDists_sorted (pts : List Coord) (q : Coord) (k : ℕ)
    (hk : k ≤ pts.length) :
    ((queryIndices pts q k).map (fun i => eDist (pts.getD i (0, 0)) q)).Pairwise
      (fun a b => a ≤ b) :=
  (queryIndices_pairwise pts q k hk).map (fun i => eDist (pts.getD i (0, 0)) q)
    (fun a b h => eDist_le_eDist _ _ q (distLeIdx_sqDist_le pts q a b h))

/-- The folded inverse-distance-weighted average of idwScore coincides with
the spec's formulation (normalize the weights to sum 1, then take the
weighted sum), over the distances and scores of the queried neighbors. -/
theorem idwScore_eq_specInterpolation (pts : List Coord) (scores : List ℚ)
    (q : Coord) (k : ℕ) (hkn : k ≤ pts.length) :
    idwScore pts scores q k =
      specInterpolation
        ((queryIndices pts q k).map (fun i => eDist (pts.getD i (0, 0)) q))
        ((queryIndices pts q k).map (fun i => ((scores.getD i 0 : ℚ) : ℝ))) := by
  have hmem := queryIndices_mem_lt pts q k hkn
  unfold idwScore specInterpolation specWeights
  have hraw :
      ((queryIndices pts q k).map (fun i => eDist (pts.getD i (0, 0)) q)).map
          (fun d => 1 / (d + (eps : ℝ)))
        = (queryIndices pts q k).map (neighborDistWeight pts q) := by
    rw [List.map_map]
    apply List.map_congr_left
    intro i hi
    simp [Function.comp, neighborDistWeight, hmem i hi]
  rw [hraw, List.map_map, List.zip_map', List.map_map, ← sum_map_div]
  apply congrArg List.sum
  apply List.map_congr_left
  intro i hi
  simp only [Function.comp, Function.comp_apply]
  ring

/-- Sum of a constant over a list. -/
theorem sum_map_const_real {A : Type} (l : List A) (c : ℝ) :
    (l.map (fun _ => c)).sum = (l.length : ℝ) * c := by
  induction l with
  | nil => simp
  | cons x xs ih =>
    simp only [List.map_cons, List.sum_cons, List.length_cons, ih]
    push_cast
    ring

/-- Dominance of the epsilon-guarded weight: an inverse-distance-weighted
average whose first sample sits at distance 0 (weight 1/eps) differs from
that sample's value s0 by at most (number of other samples) * eps / (d1 + eps),
where d1 lower-bounds the other samples' distances and all values lie in
[0, 1]. -/
theorem idw_tail_bound (l : List (ℝ × ℝ)) (s0 d1 : ℝ)
    (hs0 : 0 ≤ s0) (hs1 : s0 ≤ 1) (hd1 : 0 ≤ d1)
    (hl : ∀ p ∈ l, d1 ≤ p.1 ∧ 0 ≤ p.2 ∧ p.2 ≤ 1) :
    |(s0 * (1 / (eps : ℝ)) + (l.map (fun p => 1 / (p.1 + (eps : ℝ)) * p.2)).sum) /
        (1 / (eps : ℝ) + (l.map (fun p => 1 / (p.1 + (eps : ℝ)))).sum) - s0|
      ≤ (l.length : ℝ) * (eps : ℝ) / (d1 + (eps : ℝ)) := by
  have he : 0 < ((eps : ℚ) : ℝ) := eps_real_pos
  have hpos : ∀ p ∈ l, (0 : ℝ) < p.1 + (eps : ℝ) := fun p hp =>
    add_pos_of_nonneg_of_pos (le_trans hd1 (hl p hp).1) he
  have hT0 : 0 ≤ (l.map (fun p => 1 / (p.1 + (eps : ℝ)))).sum := by
    apply List.sum_nonneg
    intro x hx
    obtain ⟨p, hp, hpx⟩ := List.mem_map.mp hx
    rw [← hpx]
    exact le_of_lt (div_pos one_pos (hpos p hp))
  have hN0 : 0 ≤ (l.map (fun p => 1 / (p.1 + (eps : ℝ)) * p.2)).sum := by
    apply List.sum_nonneg
    intro x hx
    obtain ⟨p, hp, hpx⟩ := List.mem_map.mp hx
    rw [← hpx]
    exact mul_nonneg (le_of_lt (div_pos one_pos (hpos p hp))) (hl p hp).2.1
  have hNT : (l.map (fun p => 1 / (p.1 + (eps : ℝ)) * p.2)).sum
      ≤ (l.map (fun p => 1 / (p.1 + (eps : ℝ)))).sum := by
    apply List.sum_le_sum
    intro p hp
    exact mul_le_of_le_one_right (le_of_lt (div_pos one_pos (hpos p hp))) (hl p hp).2.2
  have hTlen : (l.map (fun p => 1 / (p.1 + (eps : ℝ)))).sum
      ≤ (l.length : ℝ) * (1 / (d1 + (eps : ℝ))) := by
    rw [← sum_map_const_real l (1 / (d1 + (eps : ℝ)))]
    apply List.sum_le_sum
    intro p hp
    apply one_div_le_one_div_of_le (add_pos_of_nonneg_of_pos hd1 he)
    exact add_le_add_right (hl p hp).1 _
  have h1e : (0 : ℝ) < 1 / (eps : ℝ) := by positivity
  have hW : (0 : ℝ) < 1 / (eps : ℝ) + (l.map (fun p => 1 / (p.1 + (eps : ℝ)))).sum :=
    add_pos_of_pos_of_nonneg h1e hT0
  have hkey : (s0 * (1 / (eps : ℝ)) + (l.map (fun p => 1 / (p.1 + (eps : ℝ)) * p.2)).sum) /
        (1 / (eps : ℝ) + (l.map (fun p => 1 / (p.1 + (eps : ℝ)))).sum) - s0
      = ((l.map (fun p => 1 / (p.1 + (eps : ℝ)) * p.2)).sum -
          s0 * (l.map (fun p => 1 / (p.1 + (eps : ℝ)))).sum) /
          (1 / (eps : ℝ) + (l.map (fun p => 1 / (p.1 + (eps : ℝ)))).sum) := by
    field_simp
    ring
  have habs : |(l.map (fun p => 1 / (p.1 + (eps : ℝ)) * p.2)).sum -
      s0 * (l.map (fun p => 1 / (p.1 + (eps : ℝ)))).sum|
      ≤ (l.map (fun p => 1 / (p.1 + (eps : ℝ)))).sum := by
    rw [abs_le]
    constructor
    · nlinarith
    · nlinarith
  rw [hkey, abs_div, abs_of_pos hW]
  calc |(l.map (fun p => 1 / (p.1 + (eps : ℝ)) * p.2)).sum -
      s0 * (l.map (fun p => 1 / (p.1 + (eps : ℝ)))).sum| /
        (1 / (eps : ℝ) + (l.map (fun p => 1 / (p.1 + (eps : ℝ)))).sum)
      ≤ (l.map (fun p => 1 / (p.1 + (eps : ℝ)))).sum /
        (1 / (eps : ℝ) + (l.map (fun p => 1 / (p.1 + (eps : ℝ)))).sum) := by gcongr
    _ ≤ (l.map (fun p => 1 / (p.1 + (eps : ℝ)))).sum / (1 / (eps : ℝ)) := by
        apply div_le_div_of_nonneg_left hT0 h1e
        linarith
    _ = (l.map (fun p => 1 / (p.1 + (eps : ℝ)))).sum * (eps : ℝ) := by
        rw [one_div, div_eq_mul_inv, inv_inv]
    _ ≤ ((l.length : ℝ) * (1 / (d1 + (eps : ℝ)))) * (eps : ℝ) := by
        exact mul_le_mul_of_nonneg_right hTlen (le_of_lt he)
    _ = (l.length : ℝ) * (eps : ℝ) / (d1 + (eps : ℝ)) := by
        field_simp

/-- When the query coincides with an indexed point, the head of the returned
neighbor list is a coincident point and the interpolated value differs from
that point's stored score by at most (k-1) * eps / (d1 + eps), d1 being the
distance to the second returned neighbor. -/
theorem idwScore_coincide_bound (pts : List Coord) (scores : List ℚ) (q : Coord)
    (k : ℕ) (hk : 2 ≤ k) (hkn : k ≤ pts.length) (hq : q ∈ pts)
    (hlen : pts.length ≤ scores.length)
    (hsc : ∀ x ∈ scores, 0 ≤ x ∧ x ≤ 1) :
    ∃ i0 i1 tl, queryIndices pts q k = i0 :: i1 :: tl ∧
      pts.getD i0 (0, 0) = q ∧
      |idwScore pts scores q k - ((scores.getD i0 0 : ℚ) : ℝ)|
        ≤ ((k : ℝ) - 1) * (eps : ℝ) /
            (eDist (pts.getD i1 (0, 0)) q + (eps : ℝ)) := by
  have hql : (queryIndices pts q k).length = k := queryIndices_length pts q k hkn
  have hmemlt := queryIndices_mem_lt pts q k hkn
  obtain ⟨i0, i1, tl, hsplit⟩ : ∃ i0 i1 tl, queryIndices pts q k = i0 :: i1 :: tl := by
    rcases hq3 : queryIndices pts q k with _ | ⟨a, _ | ⟨b, t⟩⟩
    · rw [hq3] at hql; simp at hql; omega
    · rw [hq3] at hql; simp at hql; omega
    · exact ⟨a, b, t, rfl⟩
  have hne : pts ≠ [] := by
    intro h
    rw [h] at hkn
    simp at hkn
    omega
  obtain ⟨j0, rest, hs, hj0, hmin⟩ := sortedIndices_head_min pts q hne
  have hhead : (queryIndices pts q k).headD 0 = j0 :=
    queryIndices_headD pts q k (by omega) j0 rest hs
  have hi0j0 : i0 = j0 := by
    rw [hsplit] at hhead
    simpa using hhead
  obtain ⟨j, hj, hjq⟩ := (mem_iff_getD pts q).mp hq
  have hsqd0 : sqDist (pts.getD i0 (0, 0)) q = 0 := by
    have h1 := hmin j hj
    rw [hjq, sqDist_self] at h1
    rw [hi0j0]
    exact le_antisymm h1 (sqDist_nonneg _ _)
  have hpt0 : pts.getD i0 (0, 0) = q := sqDist_eq_zero _ _ hsqd0
  have hd0 : eDist (pts.getD i0 (0, 0)) q = 0 := by
    unfold eDist
    rw [hsqd0]
    simp
  have hmem0 : i0 < pts.length :=
    hmemlt i0 (by rw [hsplit]; exact List.mem_cons_self i0 (i1 :: tl))
  have hmemtl : ∀ i ∈ i1 :: tl, i < pts.length := by
    intro i hi
    exact hmemlt i (by rw [hsplit]; exact List.mem_cons_of_mem i0 hi)
  have hscD : ∀ i, i < pts.length → 0 ≤ scores.getD i 0 ∧ scores.getD i 0 ≤ 1 := by
    intro i hi
    have hi2 : i < scores.length := lt_of_lt_of_le hi hlen
    rw [List.getD_eq_getElem scores 0 hi2]
    exact hsc _ (List.getElem_mem hi2)
  have hpw := queryIndices_pairwise pts q k hkn
  rw [hsplit, List.pairwise_cons] at hpw
  have hd1le : ∀ i ∈ i1 :: tl,
      eDist (pts.getD i1 (0, 0)) q ≤ eDist (pts.getD i (0, 0)) q := by
    intro i hi
    rcases List.mem_cons.mp hi with h | h
    · rw [h]
    · exact eDist_le_eDist _ _ q
        (distLeIdx_sqDist_le pts q i1 i ((List.pairwise_cons.mp hpw.2).1 i h))
  have hw0 : neighborDistWeight pts q i0 = 1 / (eps : ℝ) := by
    unfold neighborDistWeight
    rw [if_pos hmem0, hd0, zero_add]
  have htail1 :
      (((i1 :: tl).map (fun i => (eDist (pts.getD i (0, 0)) q,
          ((scores.getD i 0 : ℚ) : ℝ)))).map (fun p => 1 / (p.1 + (eps : ℝ)) * p.2)).sum
        = ((i1 :: tl).map (fun i =>
            neighborDistWeight pts q i * ((scores.getD i 0 : ℚ) : ℝ))).sum := by
    rw [List.map_map]
    apply congrArg List.sum
    apply List.map_congr_left
    intro i hi
    simp only [Function.comp_apply]
    unfold neighborDistWeight
    rw [if_pos (hmemtl i hi)]
  have htail2 :
      (((i1 :: tl).map (fun i => (eDist (pts.getD i (0, 0)) q,
          ((scores.getD i 0 : ℚ) : ℝ)))).map (fun p => 1 / (p.1 + (eps : ℝ)))).sum
        = ((i1 :: tl).map (neighborDistWeight pts q)).sum := by
    rw [List.map_map]
    apply congrArg List.sum
    apply List.map_congr_left
    intro i hi
    simp only [Function.comp_apply]
    unfold neighborDistWeight
    rw [if_pos (hmemtl i hi)]
  have hidw : idwScore pts scores q k =
      (((scores.getD i0 0 : ℚ) : ℝ) * (1 / (eps : ℝ)) +
          (((i1 :: tl).map (fun i => (eDist (pts.getD i (0, 0)) q,
              ((scores.getD i 0 : ℚ) : ℝ)))).map
            (fun p => 1 / (p.1 + (eps : ℝ)) * p.2)).sum) /
        (1 / (eps : ℝ) +
          (((i1 :: tl).map (fun i => (eDist (pts.getD i (0, 0)) q,
              ((scores.getD i 0 : ℚ) : ℝ)))).map
            (fun p => 1 / (p.1 + (eps : ℝ)))).sum) := by
    unfold idwScore
    rw [hsplit, htail1, htail2]
    congr 1
    · rw [List.map_cons, List.sum_cons, hw0]
      ring
    · rw [List.map_cons, List.sum_cons, hw0]
  have hlb : ∀ p ∈ (i1 :: tl).map (fun i => (eDist (pts.getD i (0, 0)) q,
      ((scores.getD i 0 : ℚ) : ℝ))),
      eDist (pts.getD i1 (0, 0)) q ≤ p.1 ∧ 0 ≤ p.2 ∧ p.2 ≤ 1 := by
    intro p hp
    obtain ⟨i, hi, hip⟩ := List.mem_map.mp hp
    rw [← hip]
    dsimp only
    refine ⟨hd1le i hi, ?_, ?_⟩
    · exact_mod_cast (hscD i (hmemtl i hi)).1
    · exact_mod_cast (hscD i (hmemtl i hi)).2
  have hs0 : (0 : ℝ) ≤ ((scores.getD i0 0 : ℚ) : ℝ) := by
    exact_mod_cast (hscD i0 hmem0).1
  have hs1 : ((scores.getD i0 0 : ℚ) : ℝ) ≤ 1 := by
    exact_mod_cast (hscD i0 hmem0).2
  have hbound := idw_tail_bound
    ((i1 :: tl).map (fun i => (eDist (pts.getD i (0, 0)) q, ((scores.getD i 0 : ℚ) : ℝ))))
    ((scores.getD i0 0 : ℚ) : ℝ) (eDist (pts.getD i1 (0, 0)) q)
    hs0 hs1 (eDist_nonneg _ _) hlb
  have hcount : ((((i1 :: tl).map (fun i => (eDist (pts.getD i (0, 0)) q,
      ((scores.getD i 0 : ℚ) : ℝ)))).length : ℝ) : ℝ) = (k : ℝ) - 1 := by
    rw [hsplit] at hql
    simp only [List.length_map, List.length_cons] at hql ⊢
    have hk2 : k = tl.length + 2 := by omega
    rw [hk2]
    push_cast
    ring
  refine ⟨i0, i1, tl, hsplit, hpt0, ?_⟩
  rw [hidw]
  rw [hcount] at hbound
  exact hbound

/-- Distance evaluation through a known square. -/
theorem eDist_eval (p q : Coord) (c : ℚ) (hc : 0 ≤ c) (h : sqDist p q = c ^ 2) :
    eDist p q = (c : ℝ) := by
  unfold eDist
  rw [h]
  push_cast
  exact Real.sqrt_sq (by exact_mod_cast hc)

/-- nearestDist over a two-point index. -/
theorem nearestDist_pair (p1 p2 q : Coord) :
    nearestDist [p1, p2] q = min (eDist p2 q) (eDist p1 q) := by
  unfold nearestDist
  simp

/-- The two-point sample index is 7 degrees from the query (10, 0). -/
theorem twoPoint_nearest_far :
    nearestDist [((0 : ℚ), (0 : ℚ)), ((3 : ℚ), (0 : ℚ))] (10, 0) = 7 := by
  rw [nearestDist_pair,
    eDist_eval _ _ 7 (by norm_num) (by norm_num [sqDist]),
    eDist_eval _ _ 10 (by norm_num) (by norm_num [sqDist])]
  norm_num

/-- The two-point sample index contains the query (0, 0). -/
theorem twoPoint_nearest_zero :
    nearestDist [((0 : ℚ), (0 : ℚ)), ((3 : ℚ), (0 : ℚ))] (0, 0) = 0 := by
  rw [nearestDist_pair,
    eDist_eval _ _ 3 (by norm_num) (by norm_num [sqDist]),
    eDist_self_zero _ _ rfl]
  norm_num

/-- The unit sample index contains the query (0, 0). -/
theorem unit_nearest_zero :
    nearestDist [((0 : ℚ), (0 : ℚ)), ((0 : ℚ), (1 : ℚ))] (0, 0) = 0 := by
  rw [nearestDist_pair,
    eDist_eval _ _ 1 (by norm_num) (by norm_num [sqDist]),
    eDist_self_zero _ _ rfl]
  norm_num

/-- The single-point score of the far query on the two-point sample scorer is
the cutoff value 0. -/
theorem twoPoint_get_far :
    twoPointScorer.get_traffic_score 10 0 default_k simple_default_max_distance =
      Except.ok 0 := by
  refine get_traffic_score_cutoff twoPointScorer [(0, 0), (3, 0)] rfl (by simp)
    10 0 default_k (by norm_num [default_k]) simple_default_max_distance ?_
  rw [twoPoint_nearest_far]
  norm_num [simple_default_max_distance]

/-- The batch of the single far query evaluates to the singleton [0]. -/
theorem twoPoint_batch_eval :
    twoPointScorer.batch_score [(10, 0)] = Except.ok [0] := by
  unfold SimpleBramptonTrafficScorer.batch_score
  rw [twoPoint_get_far]
  rfl

/-- C4: if prepare (ingestion plus normalization) yields zero usable
(location, volume) observations, prepare_data fails with the NoData error
surfaced to the caller; it never completes successfully, hence never yields
a scorer (in particular none that answers every query with 0). -/
theorem C4_prepare_noData (records : List (List Coord × Option ℚ))
    (h : extractObservations records = []) :
    prepare_data records = Except.error PrepareError.noData ∧
      ∀ s, prepare_data records ≠ Except.ok s := by
  have h1 : prepare_data records = Except.error PrepareError.noData := by
    unfold prepare_data
    rw [h]
    rfl
  refine ⟨h1, fun s hs => ?_⟩
  rw [h1] at hs
  exact Except.noConfusion hs

/-- C4 witness: a record whose fields yield no volume produces zero usable
observations, and prepare_data on it fails with NoData. -/
theorem C4_prepare_noData_witness :
    extractObservations [([(0, 0)], (none : Option ℚ))] = [] ∧
      prepare_data [([(0, 0)], (none : Option ℚ))] = Except.error PrepareError.noData :=
  ⟨rfl, (C4_prepare_noData [([(0, 0)], (none : Option ℚ))] rfl).1⟩

/-- C6 (amended): every single-point get_traffic_score call on an unprepared
scorer fails with the NotPrepared error, and so does every batch_score call
with at least one coordinate; the empty batch is the one query that returns
(with the empty result list) instead of failing. The query functions read the
state and never write it, so a failed call leaves the scorer unchanged. -/
theorem C6_notPrepared (s : SimpleBramptonTrafficScorer) (hkd : s.kdtree = none) :
    (∀ (lon lat : ℚ) (k : ℕ) (maxd : ℚ),
      s.get_traffic_score lon lat k maxd = Except.error QueryError.notPrepared) ∧
    (∀ coords, coords ≠ [] →
      s.batch_score coords = Except.error QueryError.notPrepared) := by
  have hg : ∀ (lon lat : ℚ) (k : ℕ) (maxd : ℚ),
      s.get_traffic_score lon lat k maxd = Except.error QueryError.notPrepared := by
    intro lon lat k maxd
    unfold SimpleBramptonTrafficScorer.get_traffic_score
    rw [hkd]
  refine ⟨hg, ?_⟩
  intro coords hc
  match coords with
  | [] => exact absurd rfl hc
  | c :: cs =>
    unfold SimpleBramptonTrafficScorer.batch_score
    rw [hg c.1 c.2 default_k simple_default_max_distance]

/-- C6 counterexample: batch_score with an empty coordinate list on an
unprepared scorer does not fail with NotPrepared; it returns the empty
result list successfully, because the underlying comprehension performs no
iteration and never touches the missing index. -/
theorem C6_empty_batch_counterexample :
    unpreparedScorer.batch_score [] = Except.ok [] ∧
      unpreparedScorer.kdtree = none :=
  ⟨rfl, rfl⟩

/-- C6 witness: on the concrete unprepared scorer, a single-point call and a
one-coordinate batch both fail with NotPrepared. -/
theorem C6_notPrepared_witness :
    unpreparedScorer.kdtree = none ∧
    unpreparedScorer.get_traffic_score 0 0 5 (2 / 100) =
      Except.error QueryError.notPrepared ∧
    unpreparedScorer.batch_score [(0, 0)] = Except.error QueryError.notPrepared :=
  ⟨rfl, (C6_notPrepared unpreparedScorer rfl).1 0 0 5 (2 / 100),
    (C6_notPrepared unpreparedScorer rfl).2 [(0, 0)] (by simp)⟩

/-- C9: on identical prepared state (same point array, same score array, same
index) and identical explicit arguments, the simple and the full scorer
return the same result; at the query interface the two differ only in the
default max_distance, 0.02 for the simple variant versus 0.01 for the full
one (the default k is 5 for both). -/
theorem C9_simple_full_equivalence :
    (∀ (kd : Option (List Coord)) (tp : List Coord) (ts : List ℚ)
        (lon lat : ℚ) (k : ℕ) (maxd : ℚ),
      SimpleBramptonTrafficScorer.get_traffic_score ⟨kd, tp, ts⟩ lon lat k maxd
        = BramptonTrafficScorer.get_traffic_score ⟨kd, tp, ts⟩ lon lat k maxd) ∧
    simple_default_max_distance = 2 / 100 ∧
    brampton_default_max_distance = 1 / 100 ∧
    simple_default_max_distance ≠ brampton_default_max_distance :=
  ⟨fun _ _ _ _ _ _ _ => rfl, rfl, rfl,
    by norm_num [simple_default_max_distance, brampton_default_max_distance]⟩

/-- C10: on a prepared scorer (here with at least two indexed points), a call
with k = 1 never returns a score: cKDTree.query returns scalars for k = 1,
so the `distances[0]` subscript fails; the query interface is total only
from k = 2 up. -/
theorem C10_k1_fails (s : SimpleBramptonTrafficScorer) (pts : List Coord)
    (hkd : s.kdtree = some pts) (_hn : 2 ≤ pts.length) (lon lat maxd : ℚ) :
    s.get_traffic_score lon lat 1 maxd = Except.error QueryError.scalarSubscript := by
  unfold SimpleBramptonTrafficScorer.get_traffic_score
  rw [hkd]
  rfl

/-- C10 witness: the concrete two-point scorer errors on a k = 1 query. -/
theorem C10_k1_fails_witness :
    twoPointScorer.kdtree = some [(0, 0), (3, 0)] ∧
    2 ≤ ([((0 : ℚ), (0 : ℚ)), ((3 : ℚ), (0 : ℚ))] : List Coord).length ∧
    twoPointScorer.get_traffic_score 0 0 1 1 = Except.error QueryError.scalarSubscript :=
  ⟨rfl, by simp,
    C10_k1_fails twoPointScorer [(0, 0), (3, 0)] rfl (by simp) 0 0 1⟩

/-- C5: the code does not guard k against the number n of indexed points.
With k greater than n and the nearest point within max_distance, scipy pads
the returned indices with the out-of-bounds marker n and the subsequent
`traffic_scores[indices]` raises an uncaught IndexError instead of clamping
k or failing with a controlled error; evaluated here on the concrete
two-point scorer with k = 3. -/
theorem C5_k_exceeds_crash :
    twoPointScorer.get_traffic_score 0 0 3 1 = Except.error QueryError.indexError := by
  have h01 : distLeIdx [((0 : ℚ), (0 : ℚ)), ((3 : ℚ), (0 : ℚ))] (0, 0) 0 1 = true := by
    simp only [distLeIdx, decide_eq_true_eq]
    left
    norm_num [sqDist]
  have hqi : queryIndices [((0 : ℚ), (0 : ℚ)), ((3 : ℚ), (0 : ℚ))] (0, 0) 3 = [0, 1, 2] := by
    unfold queryIndices sortedIndices
    rw [show ([((0 : ℚ), (0 : ℚ)), ((3 : ℚ), (0 : ℚ))] : List Coord).length = 2 from rfl,
      show List.range 2 = [0, 1] from rfl,
      show sortLe (distLeIdx [((0 : ℚ), (0 : ℚ)), ((3 : ℚ), (0 : ℚ))] (0, 0)) [0, 1]
        = insertLe (distLeIdx [((0 : ℚ), (0 : ℚ)), ((3 : ℚ), (0 : ℚ))] (0, 0)) 0 [1] from rfl]
    unfold insertLe
    rw [h01]
    rfl
  have hqh : queryHeadDist [((0 : ℚ), (0 : ℚ)), ((3 : ℚ), (0 : ℚ))] (0, 0) 3 = 0 := by
    unfold queryHeadDist
    rw [hqi]
    simp only [List.headD_cons, List.getD_cons_zero]
    exact eDist_self_zero _ _ rfl
  have hfi : fancyIndex twoPointScorer.traffic_scores
      (queryIndices [((0 : ℚ), (0 : ℚ)), ((3 : ℚ), (0 : ℚ))] (0, 0) 3) = none := by
    rw [hqi]
    rfl
  unfold SimpleBramptonTrafficScorer.get_traffic_score
  show (match twoPointScorer.kdtree with
    | none => Except.error QueryError.notPrepared
    | some pts =>
      if 3 = 0 then Except.error QueryError.emptyQuery
      else if 3 = 1 then Except.error QueryError.scalarSubscript
      else if pts.isEmpty then Except.ok 0
      else if ((1 : ℚ) : ℝ) < queryHeadDist pts ((0 : ℚ), (0 : ℚ)) 3 then Except.ok 0
      else
        match fancyIndex twoPointScorer.traffic_scores
            (queryIndices pts ((0 : ℚ), (0 : ℚ)) 3) with
        | none => Except.error QueryError.indexError
        | some _ => Except.ok
            (clip (idwScore pts twoPointScorer.traffic_scores ((0 : ℚ), (0 : ℚ)) 3) 0 1))
    = Except.error QueryError.indexError
  show (if 3 = 0 then Except.error QueryError.emptyQuery
      else if 3 = 1 then Except.error QueryError.scalarSubscript
      else if ([((0 : ℚ), (0 : ℚ)), ((3 : ℚ), (0 : ℚ))] : List Coord).isEmpty then Except.ok 0
      else if ((1 : ℚ) : ℝ) <
          queryHeadDist [((0 : ℚ), (0 : ℚ)), ((3 : ℚ), (0 : ℚ))] ((0 : ℚ), (0 : ℚ)) 3 then
        Except.ok 0
      else
        match fancyIndex twoPointScorer.traffic_scores
            (queryIndices [((0 : ℚ), (0 : ℚ)), ((3 : ℚ), (0 : ℚ))] ((0 : ℚ), (0 : ℚ)) 3) with
        | none => Except.error QueryError.indexError
        | some _ => Except.ok (clip (idwScore [((0 : ℚ), (0 : ℚ)), ((3 : ℚ), (0 : ℚ))]
            twoPointScorer.traffic_scores ((0 : ℚ), (0 : ℚ)) 3) 0 1))
    = Except.error QueryError.indexError
  rw [if_neg (by norm_num), if_neg (by norm_num), if_neg (by simp),
    if_neg (by rw [hqh]; norm_num), hfi]

/-- C1: on a prepared scorer, with k in the lookup's totality range
2 ≤ k ≤ n (k = 1 and k > n are the separate failure modes settled as C10 and
C5), the hard cutoff is decided by the single nearest indexed point's
distance only: strictly beyond max_distance the call returns exactly 0.0,
and at or within max_distance it returns the interpolated value — whatever
the other k-1 distances are, since nearestDist mentions only the global
minimum over the index. -/
theorem C1_nearest_cutoff (s : SimpleBramptonTrafficScorer) (pts : List Coord)
    (hkd : s.kdtree = some pts) (hne : pts ≠ []) (lon lat : ℚ) (k : ℕ) (maxd : ℚ)
    (hk : 2 ≤ k) (hkn : k ≤ pts.length)
    (hsl : pts.length ≤ s.traffic_scores.length) :
    ((maxd : ℝ) < nearestDist pts (lon, lat) →
      s.get_traffic_score lon lat k maxd = Except.ok 0) ∧
    (nearestDist pts (lon, lat) ≤ (maxd : ℝ) →
      s.get_traffic_score lon lat k maxd =
        Except.ok (clip (idwScore pts s.traffic_scores (lon, lat) k) 0 1)) :=
  ⟨fun hfar => get_traffic_score_cutoff s pts hkd hne lon lat k hk maxd hfar,
   fun hnear => get_traffic_score_interp s pts hkd hne lon lat k hk hkn hsl maxd hnear⟩

/-- C1 witness: the two-point scorer queried 7 degrees away with
max_distance 1 returns exactly 0. -/
theorem C1_nearest_cutoff_witness :
    twoPointScorer.kdtree = some [(0, 0), (3, 0)] ∧
    ((1 : ℚ) : ℝ) < nearestDist [((0 : ℚ), (0 : ℚ)), ((3 : ℚ), (0 : ℚ))] (10, 0) ∧
    twoPointScorer.get_traffic_score 10 0 2 1 = Except.ok 0 := by
  have hfar : ((1 : ℚ) : ℝ) < nearestDist [((0 : ℚ), (0 : ℚ)), ((3 : ℚ), (0 : ℚ))] (10, 0) := by
    rw [twoPoint_nearest_far]
    norm_num
  exact ⟨rfl, hfar,
    (C1_nearest_cutoff twoPointScorer [(0, 0), (3, 0)] rfl (by simp) 10 0 2 1 (by norm_num)
      (by decide) (by decide)).1 hfar⟩

/-- C2: within the cutoff (2 ≤ k ≤ n), the call returns
clip(sum of w_i * s_i, 0, 1) where the w_i are the spec's normalized
inverse-distance weights (1/(d_i + 1e-6), divided by their sum), the d_i are
the k nearest distances sorted ascending (no unqueried point is closer than
a queried one), the s_i the normalized scores of those neighbors; the value
lies in [0, 1]. -/
theorem C2_idw_formula (s : SimpleBramptonTrafficScorer) (pts : List Coord)
    (hkd : s.kdtree = some pts) (hne : pts ≠ []) (lon lat : ℚ) (k : ℕ) (maxd : ℚ)
    (hk : 2 ≤ k) (hkn : k ≤ pts.length)
    (hsl : pts.length ≤ s.traffic_scores.length)
    (hnear : nearestDist pts (lon, lat) ≤ (maxd : ℝ)) :
    ∃ v, s.get_traffic_score lon lat k maxd = Except.ok v ∧
      0 ≤ v ∧ v ≤ 1 ∧
      v = clip (specInterpolation
          ((queryIndices pts (lon, lat) k).map
            (fun i => eDist (pts.getD i (0, 0)) (lon, lat)))
          ((queryIndices pts (lon, lat) k).map
            (fun i => ((s.traffic_scores.getD i 0 : ℚ) : ℝ)))) 0 1 ∧
      ((queryIndices pts (lon, lat) k).map
        (fun i => eDist (pts.getD i (0, 0)) (lon, lat))).Pairwise (fun a b => a ≤ b) ∧
      (∀ i ∈ queryIndices pts (lon, lat) k, ∀ j, j < pts.length →
        j ∉ queryIndices pts (lon, lat) k →
          eDist (pts.getD i (0, 0)) (lon, lat) ≤ eDist (pts.getD j (0, 0)) (lon, lat)) := by
  refine ⟨clip (idwScore pts s.traffic_scores (lon, lat) k) 0 1,
    get_traffic_score_interp s pts hkd hne lon lat k hk hkn hsl maxd hnear,
    (clip_zero_one_bounds (idwScore pts s.traffic_scores (lon, lat) k)).1,
    (clip_zero_one_bounds (idwScore pts s.traffic_scores (lon, lat) k)).2,
    ?_, queryDists_sorted pts (lon, lat) k hkn, ?_⟩
  · rw [idwScore_eq_specInterpolation pts s.traffic_scores (lon, lat) k hkn]
  · intro i hi j hj hj2
    exact eDist_le_eDist _ _ _ (queryIndices_nearest pts (lon, lat) k hkn i hi j hj hj2)

/-- C2 witness: the two-point scorer queried at its first indexed point with
max_distance 1 returns a value in [0, 1]. -/
theorem C2_idw_formula_witness :
    nearestDist [((0 : ℚ), (0 : ℚ)), ((3 : ℚ), (0 : ℚ))] (0, 0) ≤ ((1 : ℚ) : ℝ) ∧
    ∃ v, twoPointScorer.get_traffic_score 0 0 2 1 = Except.ok v ∧ 0 ≤ v ∧ v ≤ 1 := by
  have hnear : nearestDist [((0 : ℚ), (0 : ℚ)), ((3 : ℚ), (0 : ℚ))] (0, 0) ≤ ((1 : ℚ) : ℝ) := by
    rw [twoPoint_nearest_zero]
    norm_num
  obtain ⟨v, h1, h2, h3, _⟩ := C2_idw_formula twoPointScorer [(0, 0), (3, 0)] rfl (by simp)
    0 0 2 1 (by norm_num) (by decide) (by decide) hnear
  exact ⟨hnear, v, h1, h2, h3⟩

/-- C3: a successful batch_score call returns exactly one output per input
coordinate, index-aligned with the input, and the i-th output equals the
result of the single-point get_traffic_score call on the i-th coordinate
alone with the default k and max_distance — so distinct coordinates cannot
interact. -/
theorem C3_batch_pointwise (s : SimpleBramptonTrafficScorer) (coords : List Coord)
    (out : List ℝ) (h : s.batch_score coords = Except.ok out) :
    out.length = coords.length ∧
    ∀ i (hi : i < coords.length) (hi2 : i < out.length),
      s.get_traffic_score (coords.get ⟨i, hi⟩).1 (coords.get ⟨i, hi⟩).2
          default_k simple_default_max_distance = Except.ok (out.get ⟨i, hi2⟩) := by
  induction coords generalizing out with
  | nil =>
    unfold SimpleBramptonTrafficScorer.batch_score at h
    cases h
    exact ⟨rfl, fun i hi hi2 => absurd hi (by simp)⟩
  | cons c cs ih =>
    unfold SimpleBramptonTrafficScorer.batch_score at h
    cases hg : s.get_traffic_score c.1 c.2 default_k simple_default_max_distance with
    | error e =>
      rw [hg] at h
      exact Except.noConfusion h
    | ok v =>
      rw [hg] at h
      cases hb : s.batch_score cs with
      | error e =>
        rw [hb] at h
        exact Except.noConfusion h
      | ok vs =>
        rw [hb] at h
        cases h
        obtain ⟨hlen, hih⟩ := ih vs hb
        refine ⟨by simp [hlen], ?_⟩
        intro i hi hi2
        match i with
        | 0 => simpa using hg
        | i2 + 1 =>
          have hi3 : i2 < cs.length := by simpa using hi
          have hi4 : i2 < vs.length := by simpa using hi2
          simpa using hih i2 hi3 hi4

/-- C3 witness: the one-coordinate batch on the two-point scorer agrees with
the single-point call. -/
theorem C3_batch_pointwise_witness :
    twoPointScorer.batch_score [(10, 0)] = Except.ok [0] ∧
    ([(0 : ℝ)] : List ℝ).length = ([((10 : ℚ), (0 : ℚ))] : List Coord).length ∧
    twoPointScorer.get_traffic_score 10 0 default_k simple_default_max_distance =
      Except.ok 0 := by
  have h := C3_batch_pointwise twoPointScorer [(10, 0)] [0] twoPoint_batch_eval
  refine ⟨twoPoint_batch_eval, h.1, ?_⟩
  have h2 := h.2 0 (by simp) (by simp)
  simpa using h2

/-- C7 counterexample: on the unit scorer the query (0, 0) coincides with
the first indexed point, whose normalized score is 1, yet the k = 2 call
returns 1000001/1000002, not 1: the epsilon guard leaves the second
neighbor (at distance 1, score 0) the nonzero normalized weight
1/1000002. -/
theorem C7_counterexample :
    unitScorer.traffic_points.getD 0 (0, 0) = (0, 0) ∧
    unitScorer.traffic_scores.getD 0 0 = 1 ∧
    unitScorer.get_traffic_score 0 0 2 1 = Except.ok ((1000001 : ℝ) / 1000002) ∧
    ((1000001 : ℝ) / 1000002) ≠ ((1 : ℚ) : ℝ) := by
  have h01 : distLeIdx [((0 : ℚ), (0 : ℚ)), ((0 : ℚ), (1 : ℚ))] (0, 0) 0 1 = true := by
    simp only [distLeIdx, decide_eq_true_eq]
    left
    norm_num [sqDist]
  have hqi : queryIndices [((0 : ℚ), (0 : ℚ)), ((0 : ℚ), (1 : ℚ))] (0, 0) 2 = [0, 1] := by
    unfold queryIndices sortedIndices
    rw [show ([((0 : ℚ), (0 : ℚ)), ((0 : ℚ), (1 : ℚ))] : List Coord).length = 2 from rfl,
      show List.range 2 = [0, 1] from rfl,
      show sortLe (distLeIdx [((0 : ℚ), (0 : ℚ)), ((0 : ℚ), (1 : ℚ))] (0, 0)) [0, 1]
        = insertLe (distLeIdx [((0 : ℚ), (0 : ℚ)), ((0 : ℚ), (1 : ℚ))] (0, 0)) 0 [1] from rfl]
    unfold insertLe
    rw [h01]
    rfl
  have hd0 : eDist ((0 : ℚ), (0 : ℚ)) ((0 : ℚ), (0 : ℚ)) = 0 := eDist_self_zero _ _ rfl
  have hd1 : eDist ((0 : ℚ), (1 : ℚ)) ((0 : ℚ), (0 : ℚ)) = 1 := by
    rw [eDist_eval _ _ 1 (by norm_num) (by norm_num [sqDist])]
    norm_num
  have hw0 : neighborDistWeight [((0 : ℚ), (0 : ℚ)), ((0 : ℚ), (1 : ℚ))] (0, 0) 0
      = 1 / (eps : ℝ) := by
    unfold neighborDistWeight
    rw [if_pos (by simp : (0 : ℕ) <
        ([((0 : ℚ), (0 : ℚ)), ((0 : ℚ), (1 : ℚ))] : List Coord).length)]
    rw [show ([((0 : ℚ), (0 : ℚ)), ((0 : ℚ), (1 : ℚ))] : List Coord).getD 0 (0, 0)
        = ((0 : ℚ), (0 : ℚ)) from rfl, hd0, zero_add]
  have hw1 : neighborDistWeight [((0 : ℚ), (0 : ℚ)), ((0 : ℚ), (1 : ℚ))] (0, 0) 1
      = 1 / (1 + (eps : ℝ)) := by
    unfold neighborDistWeight
    rw [if_pos (by simp : (1 : ℕ) <
        ([((0 : ℚ), (0 : ℚ)), ((0 : ℚ), (1 : ℚ))] : List Coord).length)]
    rw [show ([((0 : ℚ), (0 : ℚ)), ((0 : ℚ), (1 : ℚ))] : List Coord).getD 1 (0, 0)
        = ((0 : ℚ), (1 : ℚ)) from rfl, hd1]
  have hidw : idwScore [((0 : ℚ), (0 : ℚ)), ((0 : ℚ), (1 : ℚ))] [1, 0] (0, 0) 2
      = (1000001 : ℝ) / 1000002 := by
    unfold idwScore
    rw [hqi]
    simp only [List.map_cons, List.map_nil, List.sum_cons, List.sum_nil, hw0, hw1,
      List.getD_cons_zero, List.getD_cons_succ]
    norm_num [eps]
  have hnear : nearestDist [((0 : ℚ), (0 : ℚ)), ((0 : ℚ), (1 : ℚ))] (0, 0) ≤ ((1 : ℚ) : ℝ) := by
    rw [unit_nearest_zero]
    norm_num
  have hget := get_traffic_score_interp unitScorer [((0 : ℚ), (0 : ℚ)), ((0 : ℚ), (1 : ℚ))]
    rfl (by simp) 0 0 2 (by norm_num) (by decide) (by decide) 1 hnear
  have hclip : clip ((1000001 : ℝ) / 1000002) 0 1 = (1000001 : ℝ) / 1000002 := by
    unfold clip
    rw [max_eq_left (by norm_num), min_eq_left (by norm_num)]
  refine ⟨rfl, rfl, ?_, by push_cast; norm_num⟩
  rw [hget]
  rw [show unitScorer.traffic_scores = [1, 0] from rfl, hidw, hclip]

/-- C7 (amended): when the query coincides with an indexed point within a
nonnegative max_distance (2 ≤ k ≤ n, scores normalized into [0, 1]), the
returned value equals that point's own normalized score only approximately:
the coincident point heads the neighbor list and the result differs from its
score by at most (k-1)*eps/(d1+eps), where d1 is the distance to the second
returned neighbor — the epsilon-guarded weight dominates but the other
neighbors retain weight, so exact equality fails in general
(see the counterexample). -/
theorem C7_coincide_approx (s : SimpleBramptonTrafficScorer) (pts : List Coord)
    (hkd : s.kdtree = some pts) (lon lat : ℚ) (hq : ((lon, lat) : Coord) ∈ pts)
    (k : ℕ) (hk : 2 ≤ k) (hkn : k ≤ pts.length)
    (hsl : pts.length ≤ s.traffic_scores.length)
    (hsc : ∀ x ∈ s.traffic_scores, 0 ≤ x ∧ x ≤ 1)
    (maxd : ℚ) (hmd : 0 ≤ maxd) :
    ∃ i0 i1 tl v, queryIndices pts (lon, lat) k = i0 :: i1 :: tl ∧
      pts.getD i0 (0, 0) = (lon, lat) ∧
      s.get_traffic_score lon lat k maxd = Except.ok v ∧
      |v - ((s.traffic_scores.getD i0 0 : ℚ) : ℝ)|
        ≤ ((k : ℝ) - 1) * (eps : ℝ) /
            (eDist (pts.getD i1 (0, 0)) (lon, lat) + (eps : ℝ)) := by
  obtain ⟨i0, i1, tl, hsplit, hpt0, hbound⟩ :=
    idwScore_coincide_bound pts s.traffic_scores (lon, lat) k hk hkn hq hsl hsc
  have hne : pts ≠ [] := by
    intro h
    rw [h] at hq
    exact absurd hq (List.not_mem_nil _)
  have hnear : nearestDist pts (lon, lat) ≤ (maxd : ℝ) := by
    have h0 : nearestDist pts (lon, lat) ≤ eDist (lon, lat) (lon, lat) :=
      nearestDist_le pts (lon, lat) (lon, lat) hq
    rw [eDist_self_zero _ _ rfl] at h0
    exact le_trans h0 (by exact_mod_cast hmd)
  have hget := get_traffic_score_interp s pts hkd hne lon lat k hk hkn hsl maxd hnear
  have hi0 : i0 < pts.length :=
    queryIndices_mem_lt pts (lon, lat) k hkn i0
      (by rw [hsplit]; exact List.mem_cons_self i0 (i1 :: tl))
  have hi0s : i0 < s.traffic_scores.length := lt_of_lt_of_le hi0 hsl
  have hs0b : 0 ≤ s.traffic_scores.getD i0 0 ∧ s.traffic_scores.getD i0 0 ≤ 1 := by
    rw [List.getD_eq_getElem s.traffic_scores 0 hi0s]
    exact hsc _ (List.getElem_mem hi0s)
  refine ⟨i0, i1, tl, clip (idwScore pts s.traffic_scores (lon, lat) k) 0 1,
    hsplit, hpt0, hget, ?_⟩
  refine le_trans (clip_zero_one_dist_le _ _ ?_ ?_) hbound
  · exact_mod_cast hs0b.1
  · exact_mod_cast hs0b.2

/-- C7 (amended) witness: on the unit scorer at its first point with k = 2,
the returned value is within eps/(1+eps) of that point's score 1. -/
theorem C7_coincide_approx_witness :
    (((0 : ℚ), (0 : ℚ)) : Coord) ∈ ([((0 : ℚ), (0 : ℚ)), ((0 : ℚ), (1 : ℚ))] : List Coord) ∧
    ∃ i0 i1 tl v,
      queryIndices [((0 : ℚ), (0 : ℚ)), ((0 : ℚ), (1 : ℚ))] (0, 0) 2 = i0 :: i1 :: tl ∧
      unitScorer.get_traffic_score 0 0 2 1 = Except.ok v ∧
      |v - ((unitScorer.traffic_scores.getD i0 0 : ℚ) : ℝ)|
        ≤ ((2 : ℝ) - 1) * (eps : ℝ) /
            (eDist ([((0 : ℚ), (0 : ℚ)), ((0 : ℚ), (1 : ℚ))].getD i1 (0, 0)) (0, 0) + (eps : ℝ)) := by
  have hmem : (((0 : ℚ), (0 : ℚ)) : Coord) ∈
      ([((0 : ℚ), (0 : ℚ)), ((0 : ℚ), (1 : ℚ))] : List Coord) := by simp
  have hsc : ∀ x ∈ unitScorer.traffic_scores, (0 : ℚ) ≤ x ∧ x ≤ 1 := by
    intro x hx
    rw [show unitScorer.traffic_scores = [1, 0] from rfl] at hx
    rcases List.mem_cons.mp hx with h | h
    · rw [h]; norm_num
    · rw [List.mem_singleton.mp h]; norm_num
  obtain ⟨i0, i1, tl, v, h1, _, h3, h4⟩ := C7_coincide_approx unitScorer
    [((0 : ℚ), (0 : ℚ)), ((0 : ℚ), (1 : ℚ))] rfl 0 0 hmem 2 (by norm_num) (by decide)
    (by decide) hsc 1 (by norm_num)
  exact ⟨hmem, i0, i1, tl, v, ⟨h1, h3, by push_cast at h4 ⊢; exact h4⟩⟩

end SnowSpace
